import Mathlib

/-!
Verification of the xv6 networking project's core: a shallow embedding of
the e1000 driver (`kernel/e1000.c`, final version with separate TX/RX locks)
and the UDP layer (`kernel/net.c`: `sys_bind`, `sys_recv`, `sys_send`,
`ip_rx`, `arp_rx`, `net_rx`), together with theorems checking the design
specification's claims against the code.

Machine integers are modelled as `Nat` (with explicit `% 2^w` or range
hypotheses where width matters); fallible steps return explicit outcome
types; the page allocator is a consume-only stream of fresh page addresses
(`List Nat`, empty list = `kalloc` returns 0); `panic` is an explicit
outcome constructor carrying the panic message from the source.
-/

namespace XV6Net

/-! ## Definitions: the embedded data model and operations -/

def E1000_TXD_STAT_DD : Nat := 0x01

def E1000_TXD_CMD_EOP : Nat := 0x01

def E1000_TXD_CMD_RS : Nat := 0x08

def E1000_RXD_STAT_DD : Nat := 0x01

def TX_RING_SIZE : Nat := 16

def RX_RING_SIZE : Nat := 16

def PGSIZE : Nat := 4096

/-- One `struct tx_desc`: buffer physical address, length, command bits,
status bits.  `addr = 0` means no buffer is stashed in the slot. -/
structure TxDesc where
  addr : Nat
  length : Nat
  cmd : Nat
  status : Nat
deriving DecidableEq

/-- Software-visible TX state: the descriptor ring `tx_ring` and the
hardware tail register `regs[E1000_TDT]`. -/
structure TxState where
  ring : Fin 16 → TxDesc
  tdt : Nat

/-- TX state established by `e1000_init`: ring zeroed, every descriptor's
status set to `E1000_TXD_STAT_DD` and `addr` to 0, `TDH = TDT = 0`. -/
def txInit : TxState :=
  { ring := fun _ => { addr := 0, length := 0, cmd := 0, status := E1000_TXD_STAT_DD }
    tdt := 0 }

/-- Function `e1000_transmit(buf, len)`: read `TDT`; if the descriptor there lacks the
done bit the ring is full and the call returns -1 leaving all state
unchanged (the caller keeps ownership of `buf`).  Otherwise any previously
stashed buffer is freed, the new buffer address and length are installed,
`cmd` is set to `EOP|RS`, status is cleared, and `TDT` advances by one mod
`TX_RING_SIZE`; the call returns 0. -/
def e1000_transmit (buf len : Nat) (s : TxState) : Int × TxState :=
  let i : Fin 16 := ⟨s.tdt % 16, Nat.mod_lt _ (by decide)⟩
  if (s.ring i).status &&& E1000_TXD_STAT_DD = 0 then
    (-1, s)
  else
    let d : TxDesc :=
      { addr := buf, length := len
        cmd := E1000_TXD_CMD_EOP ||| E1000_TXD_CMD_RS, status := 0 }
    (0, { ring := fun k => if k = i then d else s.ring k, tdt := (s.tdt + 1) % 16 })

/-- Run `n` back-to-back `e1000_transmit` calls, the `k`-th call passing
buffer `(bufs k).1` with length `(bufs k).2`; collects the return codes in
call order. -/
def txRunN (bufs : Nat → Nat × Nat) : Nat → TxState → List Int × TxState
  | 0, s => ([], s)
  | n + 1, s =>
    let p := txRunN bufs n s
    let q := e1000_transmit (bufs n).1 (bufs n).2 p.2
    (p.1 ++ [q.1], q.2)

/-- Invariant a run of `k ≤ 16` transmits from `txInit` maintains: the tail
register equals `k mod 16`, slots below `k` hold the installed buffers with
done bit cleared, slots at or above `k` still show the pre-set done bit. -/
def TxInv (bufs : Nat → Nat × Nat) (k : Nat) (s : TxState) : Prop :=
  s.tdt = k % 16 ∧
  ∀ j : Fin 16,
    ((s.ring j).status &&& E1000_TXD_STAT_DD = if j.val < k then 0 else 1) ∧
    (j.val < k → (s.ring j).addr = (bufs j.val).1 ∧ (s.ring j).length = (bufs j.val).2)

/-- One `struct rx_desc`: buffer physical address, length, status bits. -/
structure RxDesc where
  addr : Nat
  length : Nat
  status : Nat
deriving DecidableEq

/-- Software-visible RX state: the descriptor ring `rx_ring`, the hardware
tail register `regs[E1000_RDT]`, and the page allocator's free list
(`kalloc` pops the head; an empty list models `kalloc` returning 0). -/
structure RxState where
  ring : Fin 16 → RxDesc
  rdt : Nat
  freePages : List Nat

/-- Result of a drain-loop run: normal return with the resulting state and
the `(addr, length)` frames handed to `net_rx` in extraction order, or a
kernel `panic` carrying the message from the source. -/
inductive DrainRes where
  | ok (s : RxState) (delivered : List (Nat × Nat))
  | panic (msg : String)

/-- The loop body of `e1000_recv`: starting at `(RDT + 1) mod 16`, while
that descriptor's done bit is set, hand its `(addr, length)` to `net_rx`,
install a freshly allocated buffer (panicking if `kalloc` fails), clear the
status, and advance `RDT` to that slot.  The loop clears each done bit it
consumes, so it runs at most 16 iterations; `fuel` bounds the recursion and
exhausting it corresponds to the source's unreachable trailing `panic`. -/
def e1000_recvLoop : Nat → RxState → List (Nat × Nat) → DrainRes
  | 0, _, _ => .panic "e1000_recv unreachable"
  | fuel + 1, s, acc =>
    let i : Fin 16 := ⟨(s.rdt + 1) % 16, Nat.mod_lt _ (by decide)⟩
    if (s.ring i).status &&& E1000_RXD_STAT_DD = 0 then
      .ok s acc.reverse
    else
      match s.freePages with
      | [] => .panic "e1000 kalloc in e1000_recv()"
      | page :: rest =>
        let d : RxDesc := { addr := page, length := (s.ring i).length, status := 0 }
        e1000_recvLoop fuel
          { ring := fun k => if k = i then d else s.ring k, rdt := i.val, freePages := rest }
          (((s.ring i).addr, (s.ring i).length) :: acc)

/-- Function `e1000_recv()`: drain every currently-done RX descriptor.  Fuel 17
suffices because each iteration clears the done bit it consumed. -/
def e1000_recv (s : RxState) : DrainRes := e1000_recvLoop 17 s []

/-- Read a 16-bit big-endian (network order) field — `ntohs` of a loaded
`uint16`. -/
def readU16 (buf : Nat → Nat) (off : Nat) : Nat := buf off * 256 + buf (off + 1)

/-- Read a 32-bit big-endian (network order) field — `ntohl` of a loaded
`uint32`. -/
def readU32 (buf : Nat → Nat) (off : Nat) : Nat :=
  buf off * 2 ^ 24 + buf (off + 1) * 2 ^ 16 + buf (off + 2) * 2 ^ 8 + buf (off + 3)

def ETHTYPE_IP : Nat := 0x0800

def ETHTYPE_ARP : Nat := 0x0806

def IPPROTO_UDP : Nat := 17

def ETH_SIZE : Nat := 14

def IP_SIZE : Nat := 20

def UDP_SIZE : Nat := 8

def ARP_SIZE : Nat := 28

def NPORTS : Nat := 32

def QUEUESIZE : Nat := 16

/-- The `struct packet`: 2048-byte payload buffer, payload length, source IP
and source UDP port (stored in host byte order by `ip_rx`). -/
structure Packet where
  data : Nat → Nat
  len : Nat
  src_ip : Nat
  src_port : Nat

/-- The `struct port_entry`: bound flag, port number, 16-slot FIFO of packets,
head/tail indices and occupancy count. -/
structure PortEntry where
  bound : Bool
  port : Nat
  queue : Fin 16 → Packet
  head : Nat
  tail : Nat
  count : Nat

/-- The registry `static struct port_entry ports[NPORTS]`. -/
structure Net where
  ports : Fin 32 → PortEntry

/-- Function `netinit()`: every entry unbound with zeroed bookkeeping (the queue
storage is the zero page, as for a zero-initialized static array). -/
def netinit : Net :=
  { ports := fun _ =>
      { bound := false, port := 0
        queue := fun _ => { data := fun _ => 0, len := 0, src_ip := 0, src_port := 0 }
        head := 0, tail := 0, count := 0 } }

/-- The linear scan `for(i...) if(ports[i].bound && ports[i].port == p)`
with early break: index of the first bound entry carrying port `p`. -/
def findPort (ps : Fin 32 → PortEntry) (p : Nat) : Option (Fin 32) :=
  (List.finRange 32).find? fun i => (ps i).bound && (ps i).port == p

/-- Overwrite registry slot `i`. -/
def setPort (net : Net) (i : Fin 32) (pe : PortEntry) : Net :=
  { ports := fun j => if j = i then pe else net.ports j }

/-- Instrumented outcome of one `ip_rx` call. -/
inductive RxOutcome where
  | dropNonUDP
  | dropBadLen
  | dropUnbound
  | dropFull
  | delivered
deriving DecidableEq

/-- The enqueue block of `ip_rx`: copy `payload_len` bytes (taken from the
UDP header's length field) starting at frame offset 42 into the queue slot
at `tail` — bytes of that slot beyond the new payload keep their previous
(stale) contents, as `memmove` copies only `payload_len` bytes — record
source IP and port in host byte order, advance `tail` mod 16 and bump
`count`. -/
def enqueueUDP (buf : Nat → Nat) (net : Net) (i : Fin 32) : Net :=
  let sport := readU16 buf 34
  let src_ip := readU32 buf 26
  let udp_len := readU16 buf 38
  let plen := ((udp_len : Int) - 8).toNat
  let pe := net.ports i
  let tidx : Fin 16 := ⟨pe.tail % 16, Nat.mod_lt _ (by decide)⟩
  let old := pe.queue tidx
  let pkt : Packet :=
    { data := fun j => if j < plen then buf (42 + j) else old.data j
      len := plen, src_ip := src_ip, src_port := sport }
  setPort net i
    { pe with queue := fun k => if k = tidx then pkt else pe.queue k
              tail := (pe.tail + 1) % 16
              count := pe.count + 1 }

/-- Function `ip_rx(buf, len)`: validate the IP protocol is UDP, compute the UDP
payload length from the UDP header's own length field (the driver-reported
`len` is never consulted), scan for a bound matching port, drop if none or
if that entry's queue is full, otherwise enqueue via `enqueueUDP` and wake
any waiter.  The third component counts the `kfree(buf)` calls on the
taken path (the source frees the frame exactly once on each of its five
exits). -/
def ip_rx (buf : Nat → Nat) (len : Nat) (net : Net) : Net × RxOutcome × Nat :=
  let _ := len
  if buf 23 ≠ IPPROTO_UDP then (net, .dropNonUDP, 1)
  else if ((readU16 buf 38 : Int) - 8) < 0 ∨ ((readU16 buf 38 : Int) - 8) > 2048 then
    (net, .dropBadLen, 1)
  else
    match findPort net.ports (readU16 buf 36) with
    | none => (net, .dropUnbound, 1)
    | some i =>
      if (net.ports i).count ≥ QUEUESIZE then (net, .dropFull, 1)
      else (enqueueUDP buf net i, .delivered, 1)

/-- Function `sys_bind(port)`: reject out-of-range ports; succeed idempotently if
some entry already carries the port; otherwise claim the first unbound
slot with empty queue bookkeeping (the queue storage itself is not
cleared); fail with -1 if all 32 slots are bound. -/
def sys_bind (pid : Nat) (port : Int) (net : Net) : Net × Int :=
  let _ := pid
  if port < 0 ∨ port > 65535 then (net, -1)
  else
    let p := port.toNat
    if (List.finRange 32).any (fun i => (net.ports i).bound && (net.ports i).port == p) then
      (net, 0)
    else
      match (List.finRange 32).find? (fun i => !(net.ports i).bound) with
      | some i =>
        (setPort net i
          { bound := true, port := p, queue := (net.ports i).queue
            head := 0, tail := 0, count := 0 }, 0)
      | none => (net, -1)

/-- Result of one `sys_recv` call. -/
inductive RecvRes where
  | err
  | blocked
  | ok (n : Nat) (bytes : List Nat) (src_ip : Nat) (src_port : Nat)
deriving DecidableEq

def recvDequeued (net : Net) (i : Fin 32) : Net :=
  setPort net i
    { net.ports i with head := ((net.ports i).head + 1) % 16
                       count := (net.ports i).count - 1 }

def recvHeadPkt (net : Net) (i : Fin 32) : Packet :=
  (net.ports i).queue ⟨(net.ports i).head % 16, Nat.mod_lt _ (by decide)⟩

def sys_recv (pid : Nat) (port maxlen : Int) (coData coSrc coSport : Bool)
    (net : Net) : Net × RecvRes :=
  let _ := pid
  if port < 0 ∨ port > 65535 ∨ maxlen < 0 then (net, .err)
  else
    match findPort net.ports port.toNat with
    | none => (net, .err)
    | some i =>
      if (net.ports i).count = 0 then (net, .blocked)
      else if coData && coSrc && coSport then
        (recvDequeued net i,
         .ok (min (recvHeadPkt net i).len maxlen.toNat)
           ((List.range (min (recvHeadPkt net i).len maxlen.toNat)).map (recvHeadPkt net i).data)
           (recvHeadPkt net i).src_ip (recvHeadPkt net i).src_port)
      else (recvDequeued net i, .err)

/-- Result of one `sys_send` call: the syscall's return value, the TX state
and allocator after the call, and — when the call reached
`e1000_transmit` — the transmit return code, which the source discards. -/
structure SendRes where
  ret : Int
  tx : TxState
  freePages : List Nat
  txRet : Option Int

/-- Function `sys_send(sport, dst, dport, buf, len)`: reject frames whose total
Ethernet+IP+UDP+payload size exceeds a page; `kalloc` a frame buffer
(-1 on failure); build the headers and `copyin` the payload (frees the
buffer and returns -1 on failure; `copyinOk` models that outcome); hand
the frame to `e1000_transmit` — whose return value the source ignores —
and return 0.  The header bytes written into the page are not modelled:
no claim refers to the transmitted frame's contents. -/
def sys_send (sport dst dport : Int) (len : Nat) (copyinOk : Bool)
    (freePages : List Nat) (tx : TxState) : SendRes :=
  if len + ETH_SIZE + IP_SIZE + UDP_SIZE > PGSIZE then
    { ret := -1, tx := tx, freePages := freePages, txRet := none }
  else
    match freePages with
    | [] => { ret := -1, tx := tx, freePages := freePages, txRet := none }
    | page :: rest =>
      if !copyinOk then { ret := -1, tx := tx, freePages := rest, txRet := none }
      else
        { ret := 0
          tx := (e1000_transmit page (len + ETH_SIZE + IP_SIZE + UDP_SIZE) tx).2
          freePages := rest
          txRet := some (e1000_transmit page (len + ETH_SIZE + IP_SIZE + UDP_SIZE) tx).1 }

/-- Combined kernel state threaded through the receive dispatch path:
the port registry, the TX ring (the ARP responder transmits directly),
the page allocator, and `arp_rx`'s `static int seen_arp`. -/
structure Kernel where
  net : Net
  tx : TxState
  freePages : List Nat
  seen_arp : Bool

/-- Result of a dispatch-path call: normal return with the new kernel
state and the number of `kfree` calls applied to the inbound frame
buffer, or a kernel `panic` with the message from the source. -/
inductive KRes where
  | ok (k : Kernel) (inbufFrees : Nat)
  | panic (msg : String)

/-- Function `arp_rx(inbuf)`: on a repeated query just free the inbound buffer;
otherwise mark the query seen, `kalloc` a reply buffer (panicking on
failure), build the fixed ARP reply (its bytes are not modelled), hand it
to `e1000_transmit` (return value discarded), and free the inbound
buffer. -/
def arp_rx (buf : Nat → Nat) (k : Kernel) : KRes :=
  if k.seen_arp then .ok k 1
  else
    match k.freePages with
    | [] => .panic "send_arp_reply"
    | page :: rest =>
      .ok { k with tx := (e1000_transmit page (ETH_SIZE + ARP_SIZE) k.tx).2
                   freePages := rest, seen_arp := true } 1

/-- Function `ip_rx` lifted to the kernel state (it touches only the registry and
frees the inbound buffer once on every path). -/
def ip_rx_k (buf : Nat → Nat) (len : Nat) (k : Kernel) : KRes :=
  let r := ip_rx buf len k.net
  .ok { k with net := r.1 } r.2.2

/-- Function `net_rx(buf, len)`: classify by Ethertype with minimum-length checks;
route to `arp_rx` or `ip_rx`, otherwise free the unrecognized frame. -/
def net_rx (buf : Nat → Nat) (len : Nat) (k : Kernel) : KRes :=
  if len ≥ ETH_SIZE + ARP_SIZE ∧ readU16 buf 12 = ETHTYPE_ARP then arp_rx buf k
  else if len ≥ ETH_SIZE + IP_SIZE ∧ readU16 buf 12 = ETHTYPE_IP then ip_rx_k buf len k
  else .ok k 1

/-- Well-formedness of a port entry's circular-buffer bookkeeping, as
established by `bind` and maintained by enqueue and dequeue. -/
def Wf (pe : PortEntry) : Prop :=
  pe.head < 16 ∧ pe.tail = (pe.head + pe.count) % 16 ∧ pe.count ≤ 16

/-- Abstract FIFO contents: the `count` queued packets starting at `head`,
in dequeue order. -/
def absQ (pe : PortEntry) : List Packet :=
  (List.range pe.count).map fun j =>
    pe.queue ⟨(pe.head + j) % 16, Nat.mod_lt _ (by decide)⟩

/-- The entry update performed by the enqueue block. -/
def enqEntry (pe : PortEntry) (pkt : Packet) : PortEntry :=
  { pe with
      queue := fun k =>
        if k = ⟨pe.tail % 16, Nat.mod_lt _ (by decide)⟩ then pkt else pe.queue k
      tail := (pe.tail + 1) % 16
      count := pe.count + 1 }

/-- The packet value the enqueue block builds from the frame bytes. -/
def udpPkt (buf : Nat → Nat) (pe : PortEntry) : Packet :=
  { data := fun j =>
      if j < ((readU16 buf 38 : Int) - 8).toNat then buf (42 + j)
      else (pe.queue ⟨pe.tail % 16, Nat.mod_lt _ (by decide)⟩).data j
    len := ((readU16 buf 38 : Int) - 8).toNat
    src_ip := readU32 buf 26
    src_port := readU16 buf 34 }

/-- A datagram as the spec speaks of one: payload bytes, source IP,
source UDP port (all host-order values). -/
structure Datagram where
  payload : List Nat
  srcip : Nat
  sport : Nat

/-- Datagram bounds enforced by the code paths: payload fits the 2048-byte
queue slot, IP fits 32 bits, port fits 16 bits. -/
def ValidDatagram (d : Datagram) : Prop :=
  d.payload.length ≤ 2048 ∧ d.srcip < 2 ^ 32 ∧ d.sport < 2 ^ 16

/-- Network-byte-order encoding of `d` as a UDP frame to destination port
`p`: protocol byte, big-endian source IP, source/destination ports and UDP
length field, payload from offset 42. -/
def mkFrame (d : Datagram) (p : Nat) : Nat → Nat := fun off =>
  if off = 23 then IPPROTO_UDP
  else if off = 26 then d.srcip / 2 ^ 24 % 256
  else if off = 27 then d.srcip / 2 ^ 16 % 256
  else if off = 28 then d.srcip / 2 ^ 8 % 256
  else if off = 29 then d.srcip % 256
  else if off = 34 then d.sport / 256 % 256
  else if off = 35 then d.sport % 256
  else if off = 36 then p / 256 % 256
  else if off = 37 then p % 256
  else if off = 38 then (d.payload.length + 8) / 256 % 256
  else if off = 39 then (d.payload.length + 8) % 256
  else if 42 ≤ off then d.payload.getD (off - 42) 0
  else 0

/-- The packet queued for datagram `d` carries exactly the data of `d`. -/
def Matches (d : Datagram) (pkt : Packet) : Prop :=
  pkt.len = d.payload.length ∧ pkt.src_ip = d.srcip ∧ pkt.src_port = d.sport ∧
  ∀ j, j < d.payload.length → pkt.data j = d.payload.getD j 0

/-- Deliver each datagram in order through `ip_rx` (driver-reported
length 2048, which `ip_rx` ignores), each as a frame to port `p`. -/
def enqAll (p : Nat) (ds : List Datagram) (net : Net) : Net :=
  ds.foldl (fun n d => (ip_rx (mkFrame d p) 2048 n).1) net

/-- Perform one `sys_recv` on port `p` per element of `mls` (the per-call
`maxlen` arguments), all copy-outs succeeding, collecting results in call
order. -/
def recvAll (pid : Nat) (p : Int) (mls : List Int) (net : Net) : Net × List RecvRes :=
  match mls with
  | [] => (net, [])
  | m :: rest =>
    ((recvAll pid p rest (sys_recv pid p m true true true net).1).1,
     (sys_recv pid p m true true true net).2 ::
       (recvAll pid p rest (sys_recv pid p m true true true net).1).2)

/-- A TX ring with every descriptor still pending (done bit clear). -/
def txFull : TxState :=
  { ring := fun _ => { addr := 1, length := 60, cmd := 9, status := 0 }, tdt := 0 }

/-- RX state with a finished frame pending and the page allocator empty. -/
def rxStarved : RxState :=
  { ring := fun _ => { addr := 100, length := 50, status := 1 }, rdt := 15, freePages := [] }

/-- Kernel state with an empty page allocator and no ARP query seen yet. -/
def kStarved : Kernel :=
  { net := netinit, tx := txInit, freePages := [], seen_arp := false }

/-- A concrete UDP frame addressed to port 80: IP protocol 17, source port
9, source IP 777, UDP length field 9 (one payload byte of value 7). -/
def udpFrame80 : Nat → Nat := fun off =>
  if off = 23 then 17
  else if off = 28 then 3
  else if off = 29 then 9
  else if off = 35 then 9
  else if off = 37 then 80
  else if off = 39 then 9
  else if off = 42 then 7
  else 0

/-- Registry after process 1 executed `bind(80)` on the fresh registry. -/
def bind80ByProc1 : Net := (sys_bind 1 80 netinit).1

/-- Registry after one datagram (`udpFrame80`) was then delivered. -/
def net80OneDatagram : Net := (ip_rx udpFrame80 60 bind80ByProc1).1

/-- Registry with port 80 bound at slot 0 and its queue already full. -/
def fullNet : Net :=
  setPort netinit ⟨0, by norm_num⟩
    { bound := true, port := 80
      queue := fun _ => { data := fun _ => 0, len := 0, src_ip := 0, src_port := 0 }
      head := 0, tail := 0, count := 16 }

/-- A concrete RX state: RDT = 15, slot 0 holds a finished 50-byte frame at
address 100, one free replacement page at address 200. -/
def rxDemo : RxState :=
  { ring := fun j =>
      if j = (0 : Fin 16) then { addr := 100, length := 50, status := 1 }
      else { addr := 0, length := 0, status := 0 }
    rdt := 15
    freePages := [200] }

/-- The state `rxDemo` drains to: the frame was delivered, slot 0 was
refilled with page 200, RDT advanced to 0, the free list is exhausted. -/
def rxDemoAfter : RxState :=
  { ring := fun j =>
      if j = (0 : Fin 16) then { addr := 200, length := 50, status := 0 }
      else rxDemo.ring j
    rdt := 0
    freePages := [] }

/-! ## Supporting lemmas -/

lemma txRunN_succ (bufs : Nat → Nat × Nat) (n : Nat) (s : TxState) :
    txRunN bufs (n + 1) s =
      ((txRunN bufs n s).1 ++ [(e1000_transmit (bufs n).1 (bufs n).2 (txRunN bufs n s).2).1],
       (e1000_transmit (bufs n).1 (bufs n).2 (txRunN bufs n s).2).2) := rfl

lemma txRun_inv (bufs : Nat → Nat × Nat) :
    ∀ k, k ≤ 16 →
      (txRunN bufs k txInit).1 = List.replicate k 0 ∧
      TxInv bufs k (txRunN bufs k txInit).2 := by
  intro k
  induction k with
  | zero =>
    intro _
    refine ⟨rfl, rfl, fun j => ⟨?_, fun h => absurd h (Nat.not_lt_zero _)⟩⟩
    simp [txRunN, txInit, E1000_TXD_STAT_DD]
  | succ k ih =>
    intro hk
    have hk16 : k < 16 := hk
    obtain ⟨hres, htdt, hring⟩ := ih (Nat.le_of_lt hk16)
    set s := (txRunN bufs k txInit).2 with hs
    have hidx : s.tdt % 16 = k := by
      rw [htdt]; omega
    have hi : (⟨s.tdt % 16, Nat.mod_lt _ (by decide)⟩ : Fin 16) = ⟨k, hk16⟩ := by
      exact Fin.ext hidx
    have hdd : (s.ring ⟨s.tdt % 16, Nat.mod_lt _ (by decide)⟩).status &&& E1000_TXD_STAT_DD = 1 := by
      rw [hi, (hring ⟨k, hk16⟩).1]
      simp
    rw [txRunN_succ]
    unfold e1000_transmit
    rw [← hs]
    simp only [hdd, one_ne_zero, if_false]
    constructor
    · rw [hres, List.replicate_succ' (n := k)]
    · constructor
      · show (s.tdt + 1) % 16 = (k + 1) % 16
        rw [htdt]
        omega
      · intro j
        rw [hi]
        by_cases hj : j = ⟨k, hk16⟩
        · subst hj
          constructor
          · simp [E1000_TXD_STAT_DD]
          · intro _
            simp
        · have hjk : j.val ≠ k := fun h => hj (Fin.ext h)
          simp only [if_neg hj]
          refine ⟨?_, fun h => (hring j).2 (by omega)⟩
          rw [(hring j).1]
          by_cases h : j.val < k
          · rw [if_pos h, if_pos (by omega)]
          · rw [if_neg h, if_neg (by omega)]

/-- Whenever the drain loop returns normally, the descriptor after the
final `RDT` has its done bit clear — that is the only normal exit. -/
lemma e1000_recvLoop_ok_dd_clear :
    ∀ fuel s acc s' out, e1000_recvLoop fuel s acc = .ok s' out →
      (s'.ring ⟨(s'.rdt + 1) % 16, Nat.mod_lt _ (by decide)⟩).status &&& E1000_RXD_STAT_DD = 0 := by
  intro fuel
  induction fuel with
  | zero => intro s acc s' out h; exact absurd h (by simp [e1000_recvLoop])
  | succ fuel ih =>
    intro s acc s' out h
    unfold e1000_recvLoop at h
    by_cases hdd : (s.ring ⟨(s.rdt + 1) % 16, Nat.mod_lt _ (by decide)⟩).status &&&
        E1000_RXD_STAT_DD = 0
    · simp only [hdd, if_pos rfl] at h
      cases h
      exact hdd
    · simp only [if_neg hdd] at h
      cases hfp : s.freePages with
      | nil => rw [hfp] at h; exact absurd h (by simp)
      | cons page rest =>
        rw [hfp] at h
        exact ih _ _ _ _ h

lemma e1000_transmit_full (buf len : Nat) (s : TxState)
    (hfull : (s.ring ⟨s.tdt % 16, Nat.mod_lt _ (by decide)⟩).status &&&
      E1000_TXD_STAT_DD = 0) :
    e1000_transmit buf len s = (-1, s) := by
  unfold e1000_transmit
  exact if_pos hfull

lemma ip_rx_deliver (buf : Nat → Nat) (len : Nat) (net : Net) (i : Fin 32)
    (hproto : buf 23 = IPPROTO_UDP)
    (hul : 8 ≤ readU16 buf 38) (hur : readU16 buf 38 ≤ 2056)
    (hfind : findPort net.ports (readU16 buf 36) = some i)
    (hcount : (net.ports i).count < 16) :
    ip_rx buf len net = (enqueueUDP buf net i, .delivered, 1) := by
  have h1 : ¬ (buf 23 ≠ IPPROTO_UDP) := by simp [hproto]
  have h2 : ¬ (((readU16 buf 38 : Int) - 8) < 0 ∨ ((readU16 buf 38 : Int) - 8) > 2048) := by
    push_neg
    constructor <;> [skip; skip] <;> omega
  unfold ip_rx
  rw [if_neg h1, if_neg h2, hfind]
  exact if_neg (by unfold QUEUESIZE; omega)

lemma ip_rx_dropFull (buf : Nat → Nat) (len : Nat) (net : Net) (i : Fin 32)
    (hproto : buf 23 = IPPROTO_UDP)
    (hul : 8 ≤ readU16 buf 38) (hur : readU16 buf 38 ≤ 2056)
    (hfind : findPort net.ports (readU16 buf 36) = some i)
    (hcount : (net.ports i).count ≥ 16) :
    ip_rx buf len net = (net, .dropFull, 1) := by
  have h1 : ¬ (buf 23 ≠ IPPROTO_UDP) := by simp [hproto]
  have h2 : ¬ (((readU16 buf 38 : Int) - 8) < 0 ∨ ((readU16 buf 38 : Int) - 8) > 2048) := by
    push_neg
    constructor <;> [skip; skip] <;> omega
  unfold ip_rx
  rw [if_neg h1, if_neg h2, hfind]
  exact if_pos (by unfold QUEUESIZE; omega)

lemma setPort_same (net : Net) (i : Fin 32) (pe : PortEntry) :
    (setPort net i pe).ports i = pe := by
  simp [setPort]

lemma setPort_other (net : Net) (i : Fin 32) (pe : PortEntry) (j : Fin 32)
    (h : j ≠ i) : (setPort net i pe).ports j = net.ports j := by
  simp [setPort, h]

/-- Zeta-expanded form of the enqueue block, for rewriting. -/
lemma enqueueUDP_eq (buf : Nat → Nat) (net : Net) (i : Fin 32) :
    enqueueUDP buf net i =
      setPort net i
        { net.ports i with
            queue := fun k =>
              if k = ⟨(net.ports i).tail % 16, Nat.mod_lt _ (by decide)⟩ then
                { data := fun j =>
                    if j < ((readU16 buf 38 : Int) - 8).toNat then buf (42 + j)
                    else ((net.ports i).queue
                      ⟨(net.ports i).tail % 16, Nat.mod_lt _ (by decide)⟩).data j
                  len := ((readU16 buf 38 : Int) - 8).toNat
                  src_ip := readU32 buf 26
                  src_port := readU16 buf 34 }
              else (net.ports i).queue k
            tail := ((net.ports i).tail + 1) % 16
            count := (net.ports i).count + 1 } := rfl

/-- On every path, `ip_rx` frees the inbound frame buffer exactly once. -/
lemma ip_rx_frees_once (buf : Nat → Nat) (len : Nat) (net : Net) :
    (ip_rx buf len net).2.2 = 1 := by
  unfold ip_rx
  split
  · rfl
  · split
    · rfl
    · split
      · rfl
      · split <;> rfl

lemma enqueueUDP_eq2 (buf : Nat → Nat) (net : Net) (i : Fin 32) :
    enqueueUDP buf net i =
      setPort net i (enqEntry (net.ports i) (udpPkt buf (net.ports i))) := rfl

lemma Wf_enq (pe : PortEntry) (pkt : Packet) (hwf : Wf pe) (hlt : pe.count < 16) :
    Wf (enqEntry pe pkt) := by
  obtain ⟨h1, h2, h3⟩ := hwf
  refine ⟨?_, ?_, ?_⟩
  · show pe.head < 16
    exact h1
  · show (pe.tail + 1) % 16 = (pe.head + (pe.count + 1)) % 16
    rw [h2]
    omega
  · show pe.count + 1 ≤ 16
    omega

lemma absQ_enq (pe : PortEntry) (pkt : Packet) (hwf : Wf pe) (hlt : pe.count < 16) :
    absQ (enqEntry pe pkt) = absQ pe ++ [pkt] := by
  obtain ⟨h1, h2, h3⟩ := hwf
  have hq : ∀ v, (enqEntry pe pkt).queue v =
      if v = ⟨pe.tail % 16, Nat.mod_lt _ (by decide)⟩ then pkt else pe.queue v :=
    fun _ => rfl
  unfold absQ
  simp only [show (enqEntry pe pkt).count = pe.count + 1 from rfl,
    show (enqEntry pe pkt).head = pe.head from rfl]
  rw [List.range_succ, List.map_append]
  refine congrArg₂ _ ?_ ?_
  · apply List.map_congr_left
    intro x hx
    have hx' : x < pe.count := List.mem_range.mp hx
    rw [hq]
    have hne : (pe.head + x) % 16 ≠ pe.tail % 16 := by rw [h2]; omega
    rw [if_neg fun hcon => hne (congrArg Fin.val hcon)]
  · rw [List.map_cons, List.map_nil, hq]
    have heq : (pe.head + pe.count) % 16 = pe.tail % 16 := by rw [h2]; omega
    rw [if_pos (Fin.ext heq)]

lemma Wf_deq (pe : PortEntry) (hwf : Wf pe) (hne : pe.count ≠ 0) :
    Wf { pe with head := (pe.head + 1) % 16, count := pe.count - 1 } := by
  obtain ⟨h1, h2, h3⟩ := hwf
  refine ⟨?_, ?_, ?_⟩
  · show (pe.head + 1) % 16 < 16
    omega
  · show pe.tail = ((pe.head + 1) % 16 + (pe.count - 1)) % 16
    rw [h2]
    omega
  · show pe.count - 1 ≤ 16
    omega

lemma absQ_cons (pe : PortEntry) (hne : pe.count ≠ 0) :
    absQ pe = pe.queue ⟨pe.head % 16, Nat.mod_lt _ (by decide)⟩ ::
      absQ { pe with head := (pe.head + 1) % 16, count := pe.count - 1 } := by
  unfold absQ
  simp only [show ({ pe with head := (pe.head + 1) % 16, count := pe.count - 1 } :
        PortEntry).count = pe.count - 1 from rfl,
    show ({ pe with head := (pe.head + 1) % 16, count := pe.count - 1 } :
        PortEntry).head = (pe.head + 1) % 16 from rfl,
    show ({ pe with head := (pe.head + 1) % 16, count := pe.count - 1 } :
        PortEntry).queue = pe.queue from rfl]
  rw [show pe.count = (pe.count - 1) + 1 from by omega, List.range_succ_eq_map,
    List.map_cons, List.map_map]
  refine congrArg₂ _ ?_ ?_
  · exact congrArg pe.queue (Fin.ext (by show (pe.head + 0) % 16 = pe.head % 16; omega))
  · apply List.map_congr_left
    intro x _
    show pe.queue ⟨(pe.head + (x + 1)) % 16, Nat.mod_lt _ (by decide)⟩
        = pe.queue ⟨((pe.head + 1) % 16 + x) % 16, Nat.mod_lt _ (by decide)⟩
    exact congrArg pe.queue (Fin.ext
      (by show (pe.head + (x + 1)) % 16 = ((pe.head + 1) % 16 + x) % 16; omega))

lemma mkFrame_proto (d : Datagram) (p : Nat) : mkFrame d p 23 = IPPROTO_UDP := rfl

lemma mkFrame_dport (d : Datagram) (p : Nat) (hp : p < 2 ^ 16) :
    readU16 (mkFrame d p) 36 = p := by
  show mkFrame d p 36 * 256 + mkFrame d p 37 = p
  simp only [mkFrame]
  norm_num
  omega

lemma mkFrame_sport (d : Datagram) (p : Nat) (hs : d.sport < 2 ^ 16) :
    readU16 (mkFrame d p) 34 = d.sport := by
  show mkFrame d p 34 * 256 + mkFrame d p 35 = d.sport
  simp only [mkFrame]
  norm_num
  omega

lemma mkFrame_ulen (d : Datagram) (p : Nat) (hl : d.payload.length ≤ 2048) :
    readU16 (mkFrame d p) 38 = d.payload.length + 8 := by
  show mkFrame d p 38 * 256 + mkFrame d p 39 = d.payload.length + 8
  simp only [mkFrame]
  norm_num
  omega

lemma mkFrame_srcip (d : Datagram) (p : Nat) (hip : d.srcip < 2 ^ 32) :
    readU32 (mkFrame d p) 26 = d.srcip := by
  show mkFrame d p 26 * 2 ^ 24 + mkFrame d p 27 * 2 ^ 16 +
    mkFrame d p 28 * 2 ^ 8 + mkFrame d p 29 = d.srcip
  simp only [mkFrame]
  norm_num
  omega

lemma mkFrame_payload (d : Datagram) (p : Nat) (j : Nat) :
    mkFrame d p (42 + j) = d.payload.getD j 0 := by
  have hno : ∀ (m a b : Nat), ¬ (42 + j = m) → (if 42 + j = m then a else b) = b :=
    fun _ _ _ hm => if_neg hm
  unfold mkFrame
  rw [hno 23 _ _ (by omega), hno 26 _ _ (by omega), hno 27 _ _ (by omega),
    hno 28 _ _ (by omega), hno 29 _ _ (by omega), hno 34 _ _ (by omega),
    hno 35 _ _ (by omega), hno 36 _ _ (by omega), hno 37 _ _ (by omega),
    hno 38 _ _ (by omega), hno 39 _ _ (by omega), if_pos (by omega : 42 ≤ 42 + j),
    show 42 + j - 42 = j from by omega]

lemma find?_congr {α : Type} (f g : α → Bool) (l : List α)
    (h : ∀ x ∈ l, f x = g x) : l.find? f = l.find? g := by
  induction l with
  | nil => exact rfl
  | cons hd tl ih =>
    have ha := h hd (List.mem_cons_self hd tl)
    by_cases hg : g hd = true
    · rw [List.find?_cons_of_pos _ (ha ▸ hg), List.find?_cons_of_pos _ hg]
    · rw [List.find?_cons_of_neg _ (by rw [ha]; simpa using hg),
        List.find?_cons_of_neg _ (by simpa using hg)]
      exact ih fun x hx => h x (List.mem_cons_of_mem _ hx)

/-- The port scan is unchanged by a slot update that preserves the bound
flag and port number of the slot. -/
lemma findPort_setPort (net : Net) (i : Fin 32) (pe' : PortEntry)
    (hb : pe'.bound = (net.ports i).bound) (hp : pe'.port = (net.ports i).port)
    (q : Nat) : findPort (setPort net i pe').ports q = findPort net.ports q := by
  apply find?_congr
  intro j _
  by_cases hj : j = i
  · subst hj
    rw [setPort_same, hb, hp]
  · rw [setPort_other _ _ _ _ hj]

lemma findPort_recvDequeued (net : Net) (i : Fin 32) (q : Nat) :
    findPort (recvDequeued net i).ports q = findPort net.ports q := by
  unfold recvDequeued
  apply findPort_setPort
  · rfl
  · rfl

lemma sys_recv_deq (pid : Nat) (port maxlen : Int) (net : Net) (i : Fin 32)
    (h0 : 0 ≤ port) (h1 : port ≤ 65535) (h2 : 0 ≤ maxlen)
    (hfind : findPort net.ports port.toNat = some i)
    (hcnt : (net.ports i).count ≠ 0) :
    sys_recv pid port maxlen true true true net =
      (recvDequeued net i,
       .ok (min (recvHeadPkt net i).len maxlen.toNat)
         ((List.range (min (recvHeadPkt net i).len maxlen.toNat)).map
           (recvHeadPkt net i).data)
         (recvHeadPkt net i).src_ip (recvHeadPkt net i).src_port) := by
  unfold sys_recv
  rw [if_neg (by omega : ¬ (port < 0 ∨ port > 65535 ∨ maxlen < 0))]
  simp only [hfind]
  rw [if_neg hcnt]
  rfl

lemma list_eq_range_map (l : List Nat) (f : Nat → Nat)
    (h : ∀ j, j < l.length → f j = l.getD j 0) :
    (List.range l.length).map f = l := by
  apply List.ext_getElem
  · simp
  · intro n h1 h2
    simp only [List.getElem_map, List.getElem_range]
    rw [h n h2, List.getD_eq_getElem l 0 h2]

/-- Effect of one in-capacity delivery on the designated entry. -/
lemma enq_step (p : Nat) (hp : p < 2 ^ 16) (d : Datagram) (net : Net) (i : Fin 32)
    (hv : ValidDatagram d)
    (hfind : findPort net.ports p = some i)
    (hwf : Wf (net.ports i))
    (hlt : (net.ports i).count < 16) :
    (ip_rx (mkFrame d p) 2048 net).1 =
      setPort net i (enqEntry (net.ports i) (udpPkt (mkFrame d p) (net.ports i))) := by
  obtain ⟨hl, hip, hs⟩ := hv
  rw [ip_rx_deliver (mkFrame d p) 2048 net i (mkFrame_proto d p)
    (by rw [mkFrame_ulen d p hl]; omega)
    (by rw [mkFrame_ulen d p hl]; omega)
    (by rw [mkFrame_dport d p hp]; exact hfind) hlt]
  exact enqueueUDP_eq2 (mkFrame d p) net i

/-- The packet built from the encoded frame matches the datagram. -/
lemma udpPkt_matches (p : Nat) (d : Datagram) (pe : PortEntry)
    (hv : ValidDatagram d) : Matches d (udpPkt (mkFrame d p) pe) := by
  obtain ⟨hl, hip, hs⟩ := hv
  have hplen : ((readU16 (mkFrame d p) 38 : Int) - 8).toNat = d.payload.length := by
    rw [mkFrame_ulen d p hl]
    omega
  refine ⟨hplen, ?_, ?_, ?_⟩
  · show readU32 (mkFrame d p) 26 = d.srcip
    exact mkFrame_srcip d p hip
  · show readU16 (mkFrame d p) 34 = d.sport
    exact mkFrame_sport d p hs
  · intro j hj
    show (if j < ((readU16 (mkFrame d p) 38 : Int) - 8).toNat then mkFrame d p (42 + j)
          else _) = d.payload.getD j 0
    rw [if_pos (by omega), mkFrame_payload]

/-- Running the whole in-capacity burst appends matching packets to the
abstract FIFO and preserves the scan result and well-formedness. -/
lemma enqAll_spec (p : Nat) (hp : p < 2 ^ 16) :
    ∀ (ds : List Datagram) (net : Net) (i : Fin 32),
      (∀ d ∈ ds, ValidDatagram d) →
      findPort net.ports p = some i →
      Wf (net.ports i) →
      (net.ports i).count + ds.length ≤ 16 →
      findPort (enqAll p ds net).ports p = some i ∧
      Wf ((enqAll p ds net).ports i) ∧
      ((enqAll p ds net).ports i).count = (net.ports i).count + ds.length ∧
      ∃ new, absQ ((enqAll p ds net).ports i) = absQ (net.ports i) ++ new ∧
        List.Forall₂ Matches ds new := by
  intro ds
  induction ds with
  | nil =>
    intro net i _ hfind hwf _
    exact ⟨hfind, hwf, by simp [enqAll], [], by simp [enqAll], List.Forall₂.nil⟩
  | cons d ds ih =>
    intro net i hv hfind hwf hcap
    have hvd := hv d (List.mem_cons_self d ds)
    have hlt : (net.ports i).count < 16 := by
      have := List.length_cons d ds
      omega
    have hstep := enq_step p hp d net i hvd hfind hwf hlt
    have hfold : enqAll p (d :: ds) net =
        enqAll p ds (ip_rx (mkFrame d p) 2048 net).1 := rfl
    set pkt := udpPkt (mkFrame d p) (net.ports i) with hpkt
    set net1 := setPort net i (enqEntry (net.ports i) pkt) with hnet1
    have hports1 : net1.ports i = enqEntry (net.ports i) pkt := setPort_same _ _ _
    have hfind1 : findPort net1.ports p = some i := by
      rw [hnet1, findPort_setPort net i (enqEntry (net.ports i) pkt) rfl rfl p]
      exact hfind
    have hwf1 : Wf (net1.ports i) := by
      rw [hports1]
      exact Wf_enq _ _ hwf hlt
    have hcnt1 : (net1.ports i).count = (net.ports i).count + 1 := by
      rw [hports1]
      rfl
    have habs1 : absQ (net1.ports i) = absQ (net.ports i) ++ [pkt] := by
      rw [hports1]
      exact absQ_enq _ _ hwf hlt
    obtain ⟨hf2, hw2, hc2, new, habs2, hm2⟩ :=
      ih net1 i (fun x hx => hv x (List.mem_cons_of_mem _ hx)) hfind1 hwf1
        (by rw [hcnt1]; have := List.length_cons d ds; omega)
    refine ⟨?_, ?_, ?_, pkt :: new, ?_, ?_⟩
    · rw [hfold, hstep]
      exact hf2
    · rw [hfold, hstep]
      exact hw2
    · rw [hfold, hstep, hc2, hcnt1, List.length_cons]
      omega
    · rw [hfold, hstep, habs2, habs1, List.append_assoc]
      rfl
    · exact List.Forall₂.cons (udpPkt_matches p d (net.ports i) hvd) hm2

/-- Draining a FIFO whose packets match `ds`, with sufficient per-call
`maxlen`s, returns exactly the datagrams in order. -/
lemma recvAll_spec (pid p : Nat) (hp : p < 2 ^ 16) :
    ∀ (ds : List Datagram) (mls : List Int) (net : Net) (i : Fin 32),
      findPort net.ports p = some i →
      Wf (net.ports i) →
      (net.ports i).count = ds.length →
      List.Forall₂ Matches ds (absQ (net.ports i)) →
      List.Forall₂ (fun d (m : Int) => (d.payload.length : Int) ≤ m) ds mls →
      (recvAll pid (p : Int) mls net).2 =
        ds.map fun d => RecvRes.ok d.payload.length d.payload d.srcip d.sport := by
  intro ds
  induction ds with
  | nil =>
    intro mls net i _ _ _ _ hml
    have : mls = [] := by cases hml; rfl
    subst this
    rfl
  | cons d ds ih =>
    intro mls net i hfind hwf hcnt hmatch hml
    obtain ⟨m, mls', hdm, hml', rfl⟩ := List.forall₂_cons_left_iff.mp hml
    have hne : (net.ports i).count ≠ 0 := by
      rw [hcnt]
      simp
    have hconsQ := absQ_cons (net.ports i) hne
    rw [hconsQ] at hmatch
    obtain ⟨hmd, hmds⟩ := List.forall₂_cons.mp hmatch
    have hfnat : findPort net.ports (Int.toNat (p : Int)) = some i := by
      rw [Int.toNat_natCast]
      exact hfind
    have hrecv := sys_recv_deq pid (p : Int) m net i (by positivity)
      (by exact_mod_cast Nat.le_of_lt_succ (by omega)) ?hm2 hfnat hne
    case hm2 =>
      have : (0 : Int) ≤ (d.payload.length : Int) := by positivity
      omega
    · have hhead : recvHeadPkt net i =
          (net.ports i).queue ⟨(net.ports i).head % 16, Nat.mod_lt _ (by decide)⟩ := rfl
      have hminlen : min (recvHeadPkt net i).len m.toNat = d.payload.length := by
        rw [hhead, hmd.1]
        omega
      have hbytes : (List.range (min (recvHeadPkt net i).len m.toNat)).map
          (recvHeadPkt net i).data = d.payload := by
        rw [hminlen]
        apply list_eq_range_map
        intro j hj
        rw [hhead]
        exact hmd.2.2.2 j hj
      show (sys_recv pid (p : Int) m true true true net).2 ::
          (recvAll pid (p : Int) mls' (sys_recv pid (p : Int) m true true true net).1).2 = _
      rw [hrecv]
      have hdeq : recvDequeued net i = setPort net i
          { net.ports i with head := ((net.ports i).head + 1) % 16
                             count := (net.ports i).count - 1 } := rfl
      have hports1 : (recvDequeued net i).ports i =
          { net.ports i with head := ((net.ports i).head + 1) % 16
                             count := (net.ports i).count - 1 } := by
        rw [hdeq]
        exact setPort_same _ _ _
      have hrest := ih mls' (recvDequeued net i) i
        (by rw [findPort_recvDequeued]; exact hfind)
        (by rw [hports1]; exact Wf_deq _ hwf hne)
        (by rw [hports1]; show (net.ports i).count - 1 = ds.length; rw [hcnt]; rfl)
        (by rw [hports1]; exact hmds) hml'
      rw [List.map_cons, hbytes, hminlen, hhead, hmd.2.1, hmd.2.2.1]
      exact congrArg _ hrest

/-! ## Claim theorems, witnesses and counterexamples -/

/-- C3: from the initialized TX state, 17 back-to-back `e1000_transmit`
calls with no interleaved hardware completion yield: the first 16 return 0
(each installing its buffer and length in its ring slot and advancing the
tail by one mod 16), the 17th returns -1 and leaves the whole TX state —
every descriptor and the tail register — exactly as after the 16th call,
so the 17th caller keeps its buffer. -/
theorem tx_seventeen_calls_sixteen_succeed (bufs : Nat → Nat × Nat) :
    (txRunN bufs 17 txInit).1 = List.replicate 16 0 ++ [-1] ∧
    (txRunN bufs 17 txInit).2 = (txRunN bufs 16 txInit).2 ∧
    (∀ k : Fin 17, (txRunN bufs k.val txInit).2.tdt = k.val % 16) ∧
    (∀ j : Fin 16,
      ((txRunN bufs 16 txInit).2.ring j).addr = (bufs j.val).1 ∧
      ((txRunN bufs 16 txInit).2.ring j).length = (bufs j.val).2) := by
  obtain ⟨hres, htdt, hring⟩ := txRun_inv bufs 16 (le_refl _)
  set s := (txRunN bufs 16 txInit).2 with hs
  have hdd : (s.ring ⟨s.tdt % 16, Nat.mod_lt _ (by decide)⟩).status &&& E1000_TXD_STAT_DD = 0 := by
    have hz : (⟨s.tdt % 16, Nat.mod_lt _ (by decide)⟩ : Fin 16) = ⟨0, by norm_num⟩ := by
      refine Fin.ext ?_
      show s.tdt % 16 = 0
      rw [htdt]
    rw [hz, (hring ⟨0, by norm_num⟩).1]
    simp
  have hstep : txRunN bufs 17 txInit = ((txRunN bufs 16 txInit).1 ++ [-1], s) := by
    rw [show (17 : Nat) = 16 + 1 from rfl, txRunN_succ]
    unfold e1000_transmit
    rw [← hs]
    simp [hdd]
  refine ⟨?_, ?_, ?_, ?_⟩
  · rw [hstep, hres]
  · rw [hstep]
  · intro k
    have hk : k.val ≤ 16 := Nat.lt_succ_iff.mp k.isLt
    exact (txRun_inv bufs k.val hk).2.1
  · intro j
    exact (hring j).2 j.isLt

/-- C8: `drain_receive` is idempotent with no new hardware completions —
if a drain returns normally in state `s'`, an immediate second drain from
`s'` delivers zero frames, allocates nothing, and returns `s'` itself (all
RX descriptors, the RDT register and the allocator unchanged). -/
theorem drain_receive_idempotent (s s' : RxState) (out : List (Nat × Nat))
    (h : e1000_recv s = .ok s' out) : e1000_recv s' = .ok s' [] := by
  have hdd := e1000_recvLoop_ok_dd_clear 17 s [] s' out h
  unfold e1000_recv e1000_recvLoop
  simp [hdd]

/-- Witness for C8: the concrete state `rxDemo` drains (delivering its one
pending frame) to `rxDemoAfter`, and a second drain from there is a no-op. -/
theorem drain_receive_idempotent_witness :
    e1000_recv rxDemoAfter = .ok rxDemoAfter [] :=
  drain_receive_idempotent rxDemo rxDemoAfter [(100, 50)] rfl

/-- C4: for a bound port (the first scan hit for `p`) with an empty,
well-formed queue, delivering any in-capacity sequence of valid UDP
datagrams through the receive path and then issuing one `recv` per
datagram — each `maxlen` at least that datagram's payload length, all
copy-outs succeeding — returns the payloads byte-exact, in FIFO (enqueue)
order, each with the source IP address and source UDP port recorded from
its datagram in host byte order. -/
theorem udp_fifo_delivery (net : Net) (i : Fin 32) (p pid : Nat)
    (ds : List Datagram) (mls : List Int)
    (hp : p < 2 ^ 16)
    (hfind : findPort net.ports p = some i)
    (hwf : Wf (net.ports i))
    (hempty : (net.ports i).count = 0)
    (hlen : ds.length ≤ 16)
    (hvalid : ∀ d ∈ ds, ValidDatagram d)
    (hml : List.Forall₂ (fun d (m : Int) => (d.payload.length : Int) ≤ m) ds mls) :
    (recvAll pid (p : Int) mls (enqAll p ds net)).2 =
      ds.map fun d => RecvRes.ok d.payload.length d.payload d.srcip d.sport := by
  obtain ⟨hf1, hw1, hc1, new, habs, hm⟩ :=
    enqAll_spec p hp ds net i hvalid hfind hwf (by omega)
  apply recvAll_spec pid p hp ds mls _ i hf1 hw1 (by omega) ?_ hml
  have h0 : absQ (net.ports i) = [] := by
    unfold absQ
    rw [hempty]
    rfl
  rw [habs, h0, List.nil_append]
  exact hm

/-- Witness for C4: one concrete datagram to port 80, delivered and then
received, comes back byte-exact with its source endpoint. -/
theorem udp_fifo_delivery_witness :
    (recvAll 1 (80 : Int) [100]
        (enqAll 80 [⟨[7], 777, 9⟩] bind80ByProc1)).2 =
      [RecvRes.ok 1 [7] 777 9] :=
  udp_fifo_delivery bind80ByProc1 ⟨0, by norm_num⟩ 80 1 [⟨[7], 777, 9⟩] [100]
    (by norm_num) (by decide) ⟨by decide, by decide, by decide⟩ (by decide)
    (by decide)
    (fun d hd => by
      rw [List.mem_singleton.mp hd]
      exact ⟨by decide, by decide, by decide⟩)
    (List.Forall₂.cons (by norm_num) List.Forall₂.nil)

/-- C1 (code-bug exhibit): when the TX ring is full, `e1000_transmit`
returns the "no descriptor available" code -1, but `sys_send` discards
that return value and reports 0 (success) to the process — the
resource-exhaustion error never reaches the immediate caller of `send`
(and the frame buffer is leaked, against the transmit contract comment in
the source). -/
theorem sys_send_ignores_transmit_failure (sport dst dport : Int) (len page : Nat)
    (rest : List Nat) (tx : TxState)
    (hlen : len + ETH_SIZE + IP_SIZE + UDP_SIZE ≤ PGSIZE)
    (hfull : (tx.ring ⟨tx.tdt % 16, Nat.mod_lt _ (by decide)⟩).status &&&
      E1000_TXD_STAT_DD = 0) :
    (sys_send sport dst dport len true (page :: rest) tx).txRet = some (-1) ∧
    (sys_send sport dst dport len true (page :: rest) tx).ret = 0 := by
  have hn : ¬ (len + ETH_SIZE + IP_SIZE + UDP_SIZE > PGSIZE) := by omega
  have ht := e1000_transmit_full page (len + ETH_SIZE + IP_SIZE + UDP_SIZE) tx hfull
  unfold sys_send
  rw [if_neg hn]
  refine ⟨?_, ?_⟩
  · show some (e1000_transmit page (len + ETH_SIZE + IP_SIZE + UDP_SIZE) tx).1 = some (-1)
    rw [ht]
  · rfl

/-- Witness for C1: a concrete send over a fully pending TX ring returns
0 to the process although the driver reported ring exhaustion. -/
theorem sys_send_ignores_transmit_failure_witness :
    (sys_send 2000 167772674 25603 1 true [500] txFull).txRet = some (-1) ∧
    (sys_send 2000 167772674 25603 1 true [500] txFull).ret = 0 :=
  sys_send_ignores_transmit_failure 2000 167772674 25603 1 500 [] txFull
    (by decide) (by decide)

/-- C2 counterexample: with the page allocator exhausted and a finished
frame pending, the RX drain loop does not drop the frame or return an
error — it panics (halts the kernel), refuting the claim that run-time
allocator exhaustion on the receive path is never fatal. -/
theorem rx_drain_alloc_exhaustion_panics :
    e1000_recv rxStarved = .panic "e1000 kalloc in e1000_recv()" := rfl

/-- C2 amended: at run time, allocator exhaustion on the send path is
recoverable (`sys_send` returns -1 and never reaches the driver), but a
failed receive-buffer allocation while draining the RX ring and a failed
frame-buffer allocation while building an ARP reply are both fatal: the
kernel panics. -/
theorem allocator_exhaustion_fatal_on_rx_paths :
    (∀ (sport dst dport : Int) (len : Nat) (cp : Bool) (tx : TxState),
      (sys_send sport dst dport len cp [] tx).ret = -1 ∧
      (sys_send sport dst dport len cp [] tx).txRet = none) ∧
    (∀ s : RxState, s.freePages = [] →
      (s.ring ⟨(s.rdt + 1) % 16, Nat.mod_lt _ (by decide)⟩).status &&&
        E1000_RXD_STAT_DD ≠ 0 →
      e1000_recv s = .panic "e1000 kalloc in e1000_recv()") ∧
    (∀ (buf : Nat → Nat) (k : Kernel), k.seen_arp = false → k.freePages = [] →
      arp_rx buf k = .panic "send_arp_reply") := by
  refine ⟨?_, ?_, ?_⟩
  · intro sport dst dport len cp tx
    unfold sys_send
    by_cases h : len + ETH_SIZE + IP_SIZE + UDP_SIZE > PGSIZE
    · rw [if_pos h]
      exact ⟨rfl, rfl⟩
    · rw [if_neg h]
      exact ⟨rfl, rfl⟩
  · intro s hfp hdd
    unfold e1000_recv e1000_recvLoop
    rw [if_neg hdd, hfp]
  · intro buf k h1 h2
    unfold arp_rx
    rw [h1, h2]
    rfl

/-- Witness for the amended C2: concrete instances of the three
allocator-exhaustion outcomes. -/
theorem allocator_exhaustion_fatal_on_rx_paths_witness :
    (sys_send 2000 167772674 25603 10 true [] txInit).ret = -1 ∧
    e1000_recv rxStarved = DrainRes.panic "e1000 kalloc in e1000_recv()" ∧
    arp_rx (fun _ => 0) kStarved = KRes.panic "send_arp_reply" :=
  ⟨(allocator_exhaustion_fatal_on_rx_paths.1 2000 167772674 25603 10 true txInit).1,
   allocator_exhaustion_fatal_on_rx_paths.2.1 rxStarved rfl (by decide),
   allocator_exhaustion_fatal_on_rx_paths.2.2 (fun _ => 0) kStarved rfl rfl⟩

/-- C5: a deliverable UDP datagram addressed to a bound port whose queue
occupancy is already 16 is dropped and the whole registry — that entry's
count, head, tail and the contents of all 16 queued packets included — is
left unchanged; the outcome is a silent drop, no error is surfaced
(`ip_rx` returns nothing to a caller). -/
theorem full_queue_drop_leaves_registry_unchanged (buf : Nat → Nat) (len : Nat)
    (net : Net) (i : Fin 32)
    (hproto : buf 23 = IPPROTO_UDP)
    (hul : 8 ≤ readU16 buf 38) (hur : readU16 buf 38 ≤ 2056)
    (hfind : findPort net.ports (readU16 buf 36) = some i)
    (hcount : (net.ports i).count = 16) :
    ip_rx buf len net = (net, .dropFull, 1) :=
  ip_rx_dropFull buf len net i hproto hul hur hfind (by omega)

/-- Witness for C5: the concrete datagram to port 80 is dropped by the
full concrete registry, which is returned unchanged. -/
theorem full_queue_drop_leaves_registry_unchanged_witness :
    ip_rx udpFrame80 60 fullNet = (fullNet, RxOutcome.dropFull, 1) :=
  full_queue_drop_leaves_registry_unchanged udpFrame80 60 fullNet ⟨0, by norm_num⟩
    (by decide) (by decide) (by decide) (by decide) (by decide)

/-- C6: whenever the dispatch path `net_rx` returns (does not panic), the
inbound frame buffer has been freed exactly once — this covers the
unrecognized/short-frame path, both returning ARP paths (including the
suppressed repeated-query path), every `ip_rx` drop path (non-UDP, bad
UDP length, unbound port, full queue) and the successful enqueue; no
returning path leaks the buffer or frees it twice. -/
theorem net_rx_frees_inbound_exactly_once (buf : Nat → Nat) (len : Nat)
    (k k' : Kernel) (n : Nat) (h : net_rx buf len k = .ok k' n) : n = 1 := by
  unfold net_rx at h
  split at h
  · unfold arp_rx at h
    split at h
    · cases h; rfl
    · split at h
      · simp at h
      · cases h; rfl
  · split at h
    · unfold ip_rx_k at h
      cases h
      exact ip_rx_frees_once buf len k.net
    · cases h; rfl

/-- Witness for C6: the unrecognized-frame path on a concrete kernel
state frees the buffer exactly once. -/
theorem net_rx_frees_inbound_exactly_once_witness : (1 : Nat) = 1 :=
  net_rx_frees_inbound_exactly_once (fun _ => 0) 0 kStarved kStarved 1 rfl

/-- C7 counterexample: process 1 binds port 80 and one datagram arrives;
process 2 — which never called `bind` — then calls `recv(80)` and it
succeeds, returning the queued datagram, rather than failing as the claim
("fails whenever the port was never bound by this caller") requires. -/
theorem recv_succeeds_for_non_binding_caller :
    (sys_recv 2 80 100 true true true net80OneDatagram).2 =
      RecvRes.ok 1 [7] 777 9 := by decide

/-- C7 amended: `recv` fails immediately — error return, no blocking, no
dequeue, registry unchanged — whenever no process at all has bound the
port (no bound registry entry carries that port number); the registry
records no binder identity, so binding is global rather than per-caller. -/
theorem recv_unbound_port_fails (pid : Nat) (port maxlen : Int)
    (cd cs cp : Bool) (net : Net)
    (h0 : 0 ≤ port) (h1 : port ≤ 65535)
    (hnb : findPort net.ports port.toNat = none) :
    sys_recv pid port maxlen cd cs cp net = (net, .err) := by
  unfold sys_recv
  by_cases hv : port < 0 ∨ port > 65535 ∨ maxlen < 0
  · rw [if_pos hv]
  · rw [if_neg hv, hnb]

/-- Witness for the amended C7: `recv(80)` on the fresh registry fails
immediately with an error and an unchanged registry. -/
theorem recv_unbound_port_fails_witness :
    sys_recv 7 80 100 true true true netinit = (netinit, RecvRes.err) :=
  recv_unbound_port_fails 7 80 100 true true true netinit
    (by decide) (by decide) (by decide)

/-- C9: when one of the three copy-outs to user space fails after the
head packet has been dequeued, `recv` returns an error but the registry
keeps the dequeue — head advanced by one mod 16, count decremented, the
packet not restored — so an error return from `recv` does not imply the
registry is unchanged; the datagram is lost. -/
theorem recv_copyout_failure_loses_packet (pid : Nat) (port maxlen : Int)
    (cd cs cp : Bool) (net : Net) (i : Fin 32)
    (h0 : 0 ≤ port) (h1 : port ≤ 65535) (h2 : 0 ≤ maxlen)
    (hfind : findPort net.ports port.toNat = some i)
    (hcnt : (net.ports i).count ≠ 0)
    (hco : (cd && cs && cp) = false) :
    sys_recv pid port maxlen cd cs cp net = (recvDequeued net i, .err) := by
  unfold sys_recv
  rw [if_neg (by omega : ¬ (port < 0 ∨ port > 65535 ∨ maxlen < 0))]
  simp only [hfind]
  rw [if_neg hcnt, hco]
  rfl

/-- Witness for C9: on the concrete registry holding one datagram, a
failed payload copy-out returns an error with the packet already gone. -/
theorem recv_copyout_failure_loses_packet_witness :
    sys_recv 2 80 100 false true true net80OneDatagram =
      (recvDequeued net80OneDatagram ⟨0, by norm_num⟩, RecvRes.err) :=
  recv_copyout_failure_loses_packet 2 80 100 false true true net80OneDatagram
    ⟨0, by norm_num⟩ (by decide) (by decide) (by decide) (by decide)
    (by decide) (by decide)

/-- C10: the outcome of `ip_rx` is independent of the driver-reported
frame length — the two results coincide for any two length arguments —
because the enqueued payload's extent is taken solely from the UDP
header's own length field: on a delivered datagram the queued packet's
length is that field minus the UDP header size and its bytes are read
from the frame buffer at offsets 42 onward regardless of how many bytes
the driver actually received. -/
theorem ip_rx_outcome_ignores_driver_length (buf : Nat → Nat) (net : Net) :
    (∀ len1 len2 : Nat, ip_rx buf len1 net = ip_rx buf len2 net) ∧
    (∀ (len : Nat) (i : Fin 32), buf 23 = IPPROTO_UDP →
      8 ≤ readU16 buf 38 → readU16 buf 38 ≤ 2056 →
      findPort net.ports (readU16 buf 36) = some i →
      (net.ports i).count < 16 →
      (((ip_rx buf len net).1.ports i).queue
          ⟨(net.ports i).tail % 16, Nat.mod_lt _ (by decide)⟩).len
        = readU16 buf 38 - 8 ∧
      ∀ j, j < readU16 buf 38 - 8 →
        (((ip_rx buf len net).1.ports i).queue
            ⟨(net.ports i).tail % 16, Nat.mod_lt _ (by decide)⟩).data j
          = buf (42 + j)) := by
  constructor
  · intro len1 len2
    rfl
  · intro len i hproto hul hur hfind hcount
    rw [ip_rx_deliver buf len net i hproto hul hur hfind hcount]
    simp only [enqueueUDP_eq, setPort_same]
    have htn : ((readU16 buf 38 : Int) - 8).toNat = readU16 buf 38 - 8 := by omega
    constructor
    · simp [htn]
    · intro j hj
      have hjlt : j < ((readU16 buf 38 : Int) - 8).toNat := by omega
      simp [hjlt]
      intro hcontra
      exact absurd hcontra (by omega)

/-- Witness for C10: on the concrete one-datagram delivery, the queued
length is 1 and the queued byte is the frame byte at offset 42, for any
reported length. -/
theorem ip_rx_outcome_ignores_driver_length_witness :
    ip_rx udpFrame80 0 bind80ByProc1 = ip_rx udpFrame80 9999 bind80ByProc1 ∧
    (((ip_rx udpFrame80 0 bind80ByProc1).1.ports ⟨0, by norm_num⟩).queue
        ⟨0, by norm_num⟩).len = 1 :=
  ⟨(ip_rx_outcome_ignores_driver_length udpFrame80 bind80ByProc1).1 0 9999,
   ((ip_rx_outcome_ignores_driver_length udpFrame80 bind80ByProc1).2 0
      ⟨0, by norm_num⟩ (by decide) (by decide) (by decide) (by decide)
      (by decide)).1⟩

end XV6Net
